import Mathlib

/-!
Verification of the radicli CLI builder (src/radicli/__init__.py and
src/radicli/util.py): a shallow embedding of its data model, the type
resolver `get_arg`, the registration pipeline `_command`/`cli_wrapper`,
the argparse projection `to_argparse`, and the parse pipeline, together
with theorems settling the specification claims.
-/

/-- Runtime Python values as they occur in this program: literal choices,
default values, and parse results.  `ellipsis` is Python's `...`, used by
the code as the "no default supplied" sentinel.  Floats are carried as
their literal text (no claim inspects float arithmetic). -/
inductive PyValue where
  | none
  | ellipsis
  | bool (b : Bool)
  | int (n : Int)
  | str (s : String)
  | float (lit : String)
  | path (s : String)
  | list (xs : List PyValue)

/-- Declared Python type annotations as the resolver distinguishes them:
the four `BASE_TYPES` (`str`, `int`, `float`, `pathlib.Path`), `bool`,
`NoneType`, `Literal[...]` (carrying its literal values), `List[...]`,
`Iterable[...]`, `Union[...]`/`Optional[...]` (carrying type arguments),
and `custom` for any other class with no typing origin. -/
inductive PyType where
  | str
  | int
  | float
  | path
  | bool
  | noneT
  | literal (vals : List PyValue)
  | list (args : List PyType)
  | iterable (args : List PyType)
  | union (args : List PyType)
  | custom (name : String)

mutual

def PyValue.decEq : (a b : PyValue) → Decidable (a = b)
  | .none, .none => .isTrue rfl
  | .none, .ellipsis => .isFalse (fun h => PyValue.noConfusion h)
  | .none, .bool a2 => .isFalse (fun h => PyValue.noConfusion h)
  | .none, .int a2 => .isFalse (fun h => PyValue.noConfusion h)
  | .none, .str a2 => .isFalse (fun h => PyValue.noConfusion h)
  | .none, .float a2 => .isFalse (fun h => PyValue.noConfusion h)
  | .none, .path a2 => .isFalse (fun h => PyValue.noConfusion h)
  | .none, .list a2 => .isFalse (fun h => PyValue.noConfusion h)
  | .ellipsis, .none => .isFalse (fun h => PyValue.noConfusion h)
  | .ellipsis, .ellipsis => .isTrue rfl
  | .ellipsis, .bool a2 => .isFalse (fun h => PyValue.noConfusion h)
  | .ellipsis, .int a2 => .isFalse (fun h => PyValue.noConfusion h)
  | .ellipsis, .str a2 => .isFalse (fun h => PyValue.noConfusion h)
  | .ellipsis, .float a2 => .isFalse (fun h => PyValue.noConfusion h)
  | .ellipsis, .path a2 => .isFalse (fun h => PyValue.noConfusion h)
  | .ellipsis, .list a2 => .isFalse (fun h => PyValue.noConfusion h)
  | .bool a1, .none => .isFalse (fun h => PyValue.noConfusion h)
  | .bool a1, .ellipsis => .isFalse (fun h => PyValue.noConfusion h)
  | .bool a1, .bool a2 =>
    if h : a1 = a2 then .isTrue (by rw [h])
    else .isFalse (fun he => h (by injection he))
  | .bool a1, .int a2 => .isFalse (fun h => PyValue.noConfusion h)
  | .bool a1, .str a2 => .isFalse (fun h => PyValue.noConfusion h)
  | .bool a1, .float a2 => .isFalse (fun h => PyValue.noConfusion h)
  | .bool a1, .path a2 => .isFalse (fun h => PyValue.noConfusion h)
  | .bool a1, .list a2 => .isFalse (fun h => PyValue.noConfusion h)
  | .int a1, .none => .isFalse (fun h => PyValue.noConfusion h)
  | .int a1, .ellipsis => .isFalse (fun h => PyValue.noConfusion h)
  | .int a1, .bool a2 => .isFalse (fun h => PyValue.noConfusion h)
  | .int a1, .int a2 =>
    if h : a1 = a2 then .isTrue (by rw [h])
    else .isFalse (fun he => h (by injection he))
  | .int a1, .str a2 => .isFalse (fun h => PyValue.noConfusion h)
  | .int a1, .float a2 => .isFalse (fun h => PyValue.noConfusion h)
  | .int a1, .path a2 => .isFalse (fun h => PyValue.noConfusion h)
  | .int a1, .list a2 => .isFalse (fun h => PyValue.noConfusion h)
  | .str a1, .none => .isFalse (fun h => PyValue.noConfusion h)
  | .str a1, .ellipsis => .isFalse (fun h => PyValue.noConfusion h)
  | .str a1, .bool a2 => .isFalse (fun h => PyValue.noConfusion h)
  | .str a1, .int a2 => .isFalse (fun h => PyValue.noConfusion h)
  | .str a1, .str a2 =>
    if h : a1 = a2 then .isTrue (by rw [h])
    else .isFalse (fun he => h (by injection he))
  | .str a1, .float a2 => .isFalse (fun h => PyValue.noConfusion h)
  | .str a1, .path a2 => .isFalse (fun h => PyValue.noConfusion h)
  | .str a1, .list a2 => .isFalse (fun h => PyValue.noConfusion h)
  | .float a1, .none => .isFalse (fun h => PyValue.noConfusion h)
  | .float a1, .ellipsis => .isFalse (fun h => PyValue.noConfusion h)
  | .float a1, .bool a2 => .isFalse (fun h => PyValue.noConfusion h)
  | .float a1, .int a2 => .isFalse (fun h => PyValue.noConfusion h)
  | .float a1, .str a2 => .isFalse (fun h => PyValue.noConfusion h)
  | .float a1, .float a2 =>
    if h : a1 = a2 then .isTrue (by rw [h])
    else .isFalse (fun he => h (by injection he))
  | .float a1, .path a2 => .isFalse (fun h => PyValue.noConfusion h)
  | .float a1, .list a2 => .isFalse (fun h => PyValue.noConfusion h)
  | .path a1, .none => .isFalse (fun h => PyValue.noConfusion h)
  | .path a1, .ellipsis => .isFalse (fun h => PyValue.noConfusion h)
  | .path a1, .bool a2 => .isFalse (fun h => PyValue.noConfusion h)
  | .path a1, .int a2 => .isFalse (fun h => PyValue.noConfusion h)
  | .path a1, .str a2 => .isFalse (fun h => PyValue.noConfusion h)
  | .path a1, .float a2 => .isFalse (fun h => PyValue.noConfusion h)
  | .path a1, .path a2 =>
    if h : a1 = a2 then .isTrue (by rw [h])
    else .isFalse (fun he => h (by injection he))
  | .path a1, .list a2 => .isFalse (fun h => PyValue.noConfusion h)
  | .list a1, .none => .isFalse (fun h => PyValue.noConfusion h)
  | .list a1, .ellipsis => .isFalse (fun h => PyValue.noConfusion h)
  | .list a1, .bool a2 => .isFalse (fun h => PyValue.noConfusion h)
  | .list a1, .int a2 => .isFalse (fun h => PyValue.noConfusion h)
  | .list a1, .str a2 => .isFalse (fun h => PyValue.noConfusion h)
  | .list a1, .float a2 => .isFalse (fun h => PyValue.noConfusion h)
  | .list a1, .path a2 => .isFalse (fun h => PyValue.noConfusion h)
  | .list a1, .list a2 =>
    match PyValue.decEqList a1 a2 with
    | .isTrue h => .isTrue (by rw [h])
    | .isFalse h => .isFalse (fun he => h (by injection he))

def PyValue.decEqList : (as bs : List PyValue) → Decidable (as = bs)
  | [], [] => .isTrue rfl
  | [], _ :: _ => .isFalse (fun h => List.noConfusion h)
  | _ :: _, [] => .isFalse (fun h => List.noConfusion h)
  | a :: as, b :: bs =>
    match PyValue.decEq a b with
    | .isFalse h1 => .isFalse (fun he => h1 (by injection he))
    | .isTrue h1 =>
      match PyValue.decEqList as bs with
      | .isTrue h2 => .isTrue (by rw [h1, h2])
      | .isFalse h2 => .isFalse (fun he => h2 (by injection he))

end

instance : DecidableEq PyValue := PyValue.decEq


mutual

def PyType.decEq : (a b : PyType) → Decidable (a = b)
  | .str, .str => .isTrue rfl
  | .str, .int => .isFalse (fun h => PyType.noConfusion h)
  | .str, .float => .isFalse (fun h => PyType.noConfusion h)
  | .str, .path => .isFalse (fun h => PyType.noConfusion h)
  | .str, .bool => .isFalse (fun h => PyType.noConfusion h)
  | .str, .noneT => .isFalse (fun h => PyType.noConfusion h)
  | .str, .literal a2 => .isFalse (fun h => PyType.noConfusion h)
  | .str, .list a2 => .isFalse (fun h => PyType.noConfusion h)
  | .str, .iterable a2 => .isFalse (fun h => PyType.noConfusion h)
  | .str, .union a2 => .isFalse (fun h => PyType.noConfusion h)
  | .str, .custom a2 => .isFalse (fun h => PyType.noConfusion h)
  | .int, .str => .isFalse (fun h => PyType.noConfusion h)
  | .int, .int => .isTrue rfl
  | .int, .float => .isFalse (fun h => PyType.noConfusion h)
  | .int, .path => .isFalse (fun h => PyType.noConfusion h)
  | .int, .bool => .isFalse (fun h => PyType.noConfusion h)
  | .int, .noneT => .isFalse (fun h => PyType.noConfusion h)
  | .int, .literal a2 => .isFalse (fun h => PyType.noConfusion h)
  | .int, .list a2 => .isFalse (fun h => PyType.noConfusion h)
  | .int, .iterable a2 => .isFalse (fun h => PyType.noConfusion h)
  | .int, .union a2 => .isFalse (fun h => PyType.noConfusion h)
  | .int, .custom a2 => .isFalse (fun h => PyType.noConfusion h)
  | .float, .str => .isFalse (fun h => PyType.noConfusion h)
  | .float, .int => .isFalse (fun h => PyType.noConfusion h)
  | .float, .float => .isTrue rfl
  | .float, .path => .isFalse (fun h => PyType.noConfusion h)
  | .float, .bool => .isFalse (fun h => PyType.noConfusion h)
  | .float, .noneT => .isFalse (fun h => PyType.noConfusion h)
  | .float, .literal a2 => .isFalse (fun h => PyType.noConfusion h)
  | .float, .list a2 => .isFalse (fun h => PyType.noConfusion h)
  | .float, .iterable a2 => .isFalse (fun h => PyType.noConfusion h)
  | .float, .union a2 => .isFalse (fun h => PyType.noConfusion h)
  | .float, .custom a2 => .isFalse (fun h => PyType.noConfusion h)
  | .path, .str => .isFalse (fun h => PyType.noConfusion h)
  | .path, .int => .isFalse (fun h => PyType.noConfusion h)
  | .path, .float => .isFalse (fun h => PyType.noConfusion h)
  | .path, .path => .isTrue rfl
  | .path, .bool => .isFalse (fun h => PyType.noConfusion h)
  | .path, .noneT => .isFalse (fun h => PyType.noConfusion h)
  | .path, .literal a2 => .isFalse (fun h => PyType.noConfusion h)
  | .path, .list a2 => .isFalse (fun h => PyType.noConfusion h)
  | .path, .iterable a2 => .isFalse (fun h => PyType.noConfusion h)
  | .path, .union a2 => .isFalse (fun h => PyType.noConfusion h)
  | .path, .custom a2 => .isFalse (fun h => PyType.noConfusion h)
  | .bool, .str => .isFalse (fun h => PyType.noConfusion h)
  | .bool, .int => .isFalse (fun h => PyType.noConfusion h)
  | .bool, .float => .isFalse (fun h => PyType.noConfusion h)
  | .bool, .path => .isFalse (fun h => PyType.noConfusion h)
  | .bool, .bool => .isTrue rfl
  | .bool, .noneT => .isFalse (fun h => PyType.noConfusion h)
  | .bool, .literal a2 => .isFalse (fun h => PyType.noConfusion h)
  | .bool, .list a2 => .isFalse (fun h => PyType.noConfusion h)
  | .bool, .iterable a2 => .isFalse (fun h => PyType.noConfusion h)
  | .bool, .union a2 => .isFalse (fun h => PyType.noConfusion h)
  | .bool, .custom a2 => .isFalse (fun h => PyType.noConfusion h)
  | .noneT, .str => .isFalse (fun h => PyType.noConfusion h)
  | .noneT, .int => .isFalse (fun h => PyType.noConfusion h)
  | .noneT, .float => .isFalse (fun h => PyType.noConfusion h)
  | .noneT, .path => .isFalse (fun h => PyType.noConfusion h)
  | .noneT, .bool => .isFalse (fun h => PyType.noConfusion h)
  | .noneT, .noneT => .isTrue rfl
  | .noneT, .literal a2 => .isFalse (fun h => PyType.noConfusion h)
  | .noneT, .list a2 => .isFalse (fun h => PyType.noConfusion h)
  | .noneT, .iterable a2 => .isFalse (fun h => PyType.noConfusion h)
  | .noneT, .union a2 => .isFalse (fun h => PyType.noConfusion h)
  | .noneT, .custom a2 => .isFalse (fun h => PyType.noConfusion h)
  | .literal a1, .str => .isFalse (fun h => PyType.noConfusion h)
  | .literal a1, .int => .isFalse (fun h => PyType.noConfusion h)
  | .literal a1, .float => .isFalse (fun h => PyType.noConfusion h)
  | .literal a1, .path => .isFalse (fun h => PyType.noConfusion h)
  | .literal a1, .bool => .isFalse (fun h => PyType.noConfusion h)
  | .literal a1, .noneT => .isFalse (fun h => PyType.noConfusion h)
  | .literal a1, .literal a2 =>
    if h : a1 = a2 then .isTrue (by rw [h])
    else .isFalse (fun he => h (by injection he))
  | .literal a1, .list a2 => .isFalse (fun h => PyType.noConfusion h)
  | .literal a1, .iterable a2 => .isFalse (fun h => PyType.noConfusion h)
  | .literal a1, .union a2 => .isFalse (fun h => PyType.noConfusion h)
  | .literal a1, .custom a2 => .isFalse (fun h => PyType.noConfusion h)
  | .list a1, .str => .isFalse (fun h => PyType.noConfusion h)
  | .list a1, .int => .isFalse (fun h => PyType.noConfusion h)
  | .list a1, .float => .isFalse (fun h => PyType.noConfusion h)
  | .list a1, .path => .isFalse (fun h => PyType.noConfusion h)
  | .list a1, .bool => .isFalse (fun h => PyType.noConfusion h)
  | .list a1, .noneT => .isFalse (fun h => PyType.noConfusion h)
  | .list a1, .literal a2 => .isFalse (fun h => PyType.noConfusion h)
  | .list a1, .list a2 =>
    match PyType.decEqList a1 a2 with
    | .isTrue h => .isTrue (by rw [h])
    | .isFalse h => .isFalse (fun he => h (by injection he))
  | .list a1, .iterable a2 => .isFalse (fun h => PyType.noConfusion h)
  | .list a1, .union a2 => .isFalse (fun h => PyType.noConfusion h)
  | .list a1, .custom a2 => .isFalse (fun h => PyType.noConfusion h)
  | .iterable a1, .str => .isFalse (fun h => PyType.noConfusion h)
  | .iterable a1, .int => .isFalse (fun h => PyType.noConfusion h)
  | .iterable a1, .float => .isFalse (fun h => PyType.noConfusion h)
  | .iterable a1, .path => .isFalse (fun h => PyType.noConfusion h)
  | .iterable a1, .bool => .isFalse (fun h => PyType.noConfusion h)
  | .iterable a1, .noneT => .isFalse (fun h => PyType.noConfusion h)
  | .iterable a1, .literal a2 => .isFalse (fun h => PyType.noConfusion h)
  | .iterable a1, .list a2 => .isFalse (fun h => PyType.noConfusion h)
  | .iterable a1, .iterable a2 =>
    match PyType.decEqList a1 a2 with
    | .isTrue h => .isTrue (by rw [h])
    | .isFalse h => .isFalse (fun he => h (by injection he))
  | .iterable a1, .union a2 => .isFalse (fun h => PyType.noConfusion h)
  | .iterable a1, .custom a2 => .isFalse (fun h => PyType.noConfusion h)
  | .union a1, .str => .isFalse (fun h => PyType.noConfusion h)
  | .union a1, .int => .isFalse (fun h => PyType.noConfusion h)
  | .union a1, .float => .isFalse (fun h => PyType.noConfusion h)
  | .union a1, .path => .isFalse (fun h => PyType.noConfusion h)
  | .union a1, .bool => .isFalse (fun h => PyType.noConfusion h)
  | .union a1, .noneT => .isFalse (fun h => PyType.noConfusion h)
  | .union a1, .literal a2 => .isFalse (fun h => PyType.noConfusion h)
  | .union a1, .list a2 => .isFalse (fun h => PyType.noConfusion h)
  | .union a1, .iterable a2 => .isFalse (fun h => PyType.noConfusion h)
  | .union a1, .union a2 =>
    match PyType.decEqList a1 a2 with
    | .isTrue h => .isTrue (by rw [h])
    | .isFalse h => .isFalse (fun he => h (by injection he))
  | .union a1, .custom a2 => .isFalse (fun h => PyType.noConfusion h)
  | .custom a1, .str => .isFalse (fun h => PyType.noConfusion h)
  | .custom a1, .int => .isFalse (fun h => PyType.noConfusion h)
  | .custom a1, .float => .isFalse (fun h => PyType.noConfusion h)
  | .custom a1, .path => .isFalse (fun h => PyType.noConfusion h)
  | .custom a1, .bool => .isFalse (fun h => PyType.noConfusion h)
  | .custom a1, .noneT => .isFalse (fun h => PyType.noConfusion h)
  | .custom a1, .literal a2 => .isFalse (fun h => PyType.noConfusion h)
  | .custom a1, .list a2 => .isFalse (fun h => PyType.noConfusion h)
  | .custom a1, .iterable a2 => .isFalse (fun h => PyType.noConfusion h)
  | .custom a1, .union a2 => .isFalse (fun h => PyType.noConfusion h)
  | .custom a1, .custom a2 =>
    if h : a1 = a2 then .isTrue (by rw [h])
    else .isFalse (fun he => h (by injection he))

def PyType.decEqList : (as bs : List PyType) → Decidable (as = bs)
  | [], [] => .isTrue rfl
  | [], _ :: _ => .isFalse (fun h => List.noConfusion h)
  | _ :: _, [] => .isFalse (fun h => List.noConfusion h)
  | a :: as, b :: bs =>
    match PyType.decEq a b with
    | .isFalse h1 => .isFalse (fun he => h1 (by injection he))
    | .isTrue h1 =>
      match PyType.decEqList as bs with
      | .isTrue h2 => .isTrue (by rw [h1, h2])
      | .isFalse h2 => .isFalse (fun he => h2 (by injection he))

end

instance : DecidableEq PyType := PyType.decEq


/-- A user-supplied converter function (`Callable[[str], Any]`); opaque,
identified by its `__name__`. -/
structure Converter where
  name : String
deriving DecidableEq

/-- What can stand in the `param_type` position of `get_arg` (and in the
`type` field of an `ArgparseArg`): a declared Python type or a converter
function. -/
inductive ValType where
  | pyType (t : PyType)
  | conv (c : Converter)
deriving DecidableEq

/-- Embeds `BASE_TYPES = [str, int, float, Path]` (util.py line 8). -/
def BASE_TYPES : List PyType := [.str, .int, .float, .path]

/-- Python's `type(v)` for the runtime values above (used on the first
value of a `Literal`; literal values are primitives in practice). -/
def pyValueType : PyValue → PyType
  | .none => .noneT
  | .ellipsis => .custom "ellipsis"
  | .bool _ => .bool
  | .int _ => .int
  | .str _ => .str
  | .float _ => .float
  | .path _ => .path
  | .list _ => .custom "list"

/-- The typing origins the code compares against. -/
inductive Origin where
  | literal
  | list
  | iterable
  | union
deriving DecidableEq

/-- Embeds `typing.get_origin`: `some` only for subscripted generics. -/
def get_origin : PyType → Option Origin
  | .literal _ => some .literal
  | .list _ => some .list
  | .iterable _ => some .iterable
  | .union _ => some .union
  | _ => none

/-- Embeds `UnsupportedTypeError` (util.py lines 11-15); its `message` field is
the f-string rendering of `arg` and `annot` and is omitted as derived. -/
structure UnsupportedTypeError where
  arg : String
  annot : ValType
deriving DecidableEq

/-- Embeds `Arg` (util.py lines 18-25): the decorator-level override field. -/
structure Arg where
  option : Option String := none
  short : Option String := none
  help : Option String := none
  converter : Option Converter := none
deriving DecidableEq

/-- Embeds `ArgparseArg` (util.py lines 28-39): the resolved argument descriptor.
Field defaults mirror the dataclass defaults (`default` is `...`). -/
structure ArgparseArg where
  id : String
  name : Option String := none
  shorthand : Option String := none
  type : Option ValType := none
  default : PyValue := .ellipsis
  action : Option String := none
  choices : Option (List PyValue) := none
  help : Option String := none
deriving DecidableEq

/-- Embeds `find_base_type` (util.py lines 115-122): first member of
`BASE_TYPES` contained in `args`, else `default_type`. -/
def find_base_type (args : List PyType) (default_type : PyType := .str) : PyType :=
  match BASE_TYPES.find? (fun base_type => decide (base_type ∈ args)) with
  | some base_type => base_type
  | Option.none => default_type

/-- Embeds `get_arg` (util.py lines 66-112): resolve one parameter's declared
type (or converter) into an `ArgparseArg`, raising
`UnsupportedTypeError` outside the handled cases.  The branches follow
the source in order: skip-resolve, `BASE_TYPES`, `bool`,
`get_origin`-is-None, non-empty `Literal`, `list`/`Iterable`, `Union`
(recursing on the first non-`None` variant, forwarding `name`, `help`
and `default` but not `shorthand`), final raise. -/
def get_arg (param : String) (param_type : ValType) (name : Option String)
    (shorthand : Option String) (help : Option String)
    (default : PyValue) (skip_resolve : Bool) :
    Except UnsupportedTypeError ArgparseArg :=
  let arg : ArgparseArg :=
    { id := param, name := name, shorthand := shorthand, help := help,
      type := some param_type }
  let arg := if default ≠ PyValue.ellipsis then { arg with default := default } else arg
  if skip_resolve then .ok arg
  else
    match param_type with
    | .conv _ =>
      -- a converter reaching structural resolution: it is not in
      -- BASE_TYPES, is not bool and has no typing origin, so the code
      -- falls through to the first raise
      .error ⟨param, param_type⟩
    | .pyType t =>
      if t ∈ BASE_TYPES then .ok { arg with type := some (.pyType t) }
      else if t = PyType.bool then
        .ok { arg with type := Option.none, default := .bool false,
                       action := some "store_true" }
      else
        -- `origin = get_origin(param_type); if not origin: raise ...`:
        -- the origin-less constructors (atoms, NoneType, custom classes)
        -- take the catch-all error branch below; `Literal` with no
        -- options and `Union` with no non-`None` variant fall through
        -- every `origin` test to the final raise, with the same error
        match t with
        | .literal (v :: vs) =>
          .ok { arg with choices := some (v :: vs),
                         type := some (.pyType (pyValueType v)) }
        | .list as => .ok { arg with type := some (.pyType (find_base_type as)),
                                     action := some "append" }
        | .iterable as => .ok { arg with type := some (.pyType (find_base_type as)),
                                         action := some "append" }
        | .union as =>
          match h : as.filter (fun a => decide (a ≠ PyType.noneT)) with
          | t₀ :: _ => get_arg param (.pyType t₀) name Option.none help default false
          | [] => .error ⟨param, .pyType t⟩
        | _ => .error ⟨param, .pyType t⟩
termination_by sizeOf param_type
decreasing_by
  simp_wf
  have hmem : t₀ ∈ as := by
    have hmf : t₀ ∈ as.filter (fun a => decide (a ≠ PyType.noneT)) := by
      rw [h]; exact List.mem_cons_self _ _
    exact List.mem_of_mem_filter hmf
  have := List.sizeOf_lt_of_mem hmem
  omega

example : get_arg "x" (.pyType .str) none none none .ellipsis false =
    .ok ⟨"x", none, none, some (.pyType .str), .ellipsis, none, none, none⟩ := by
  simp [get_arg, BASE_TYPES]

example : get_arg "b" (.pyType .bool) none none none (.bool true) false =
    .ok ⟨"b", none, none, none, .bool false, some "store_true", none, none⟩ := by
  simp [get_arg, BASE_TYPES]

/-- Embeds `get_type_name` (util.py lines 125-130): `__name__` when present
(plain classes and converter functions), else the `str()` rendering with
any dotted prefix split off.  Display-only: it only feeds the composed
help string, which no claim inspects, so generic types are rendered
schematically. -/
def pyTypeName : PyType → String
  | .str => "str"
  | .int => "int"
  | .float => "float"
  | .path => "Path"
  | .bool => "bool"
  | .noneT => "NoneType"
  | .custom n => n
  | .literal _ => "Literal[...]"
  | .list _ => "List[...]"
  | .iterable _ => "Iterable[...]"
  | .union _ => "Union[...]"

/-- Embeds `get_type_name` applied to the `arg_type` value (a type or a
converter function, whose `__name__` is its name). -/
def get_type_name : ValType → String
  | .pyType t => pyTypeName t
  | .conv c => c.name

/-- One parameter of the target function as `inspect.signature` reports
it: its name, its declared type `annot`, and its declared default
(`Option.none` models `inspect.Parameter.empty`, i.e. no explicit
default; `some PyValue.none` is an explicit `None` default). -/
structure Param where
  name : String
  annot : PyType
  default : Option PyValue
deriving DecidableEq

/-- Embeds `sig_defaults[param]` (__init__.py lines 56-60): the declared
default, or the `...` placeholder when the parameter has none. -/
def sig_default (p : Param) : PyValue :=
  match p.default with
  | some v => v
  | Option.none => .ellipsis

/-- The `args` dict after the first loop of `cli_wrapper` (__init__.py
lines 54-62): the decorator's overrides (in decorator mention order,
Python dicts preserving insertion order) extended with a default `Arg()`
for every function parameter not mentioned, appended in declared order. -/
def fill_args (decoratorArgs : List (String × Arg)) (params : List Param) :
    List (String × Arg) :=
  params.foldl
    (fun acc p =>
      if acc.any (fun kv => kv.1 = p.name) then acc
      else acc ++ [(p.name, ⟨Option.none, Option.none, Option.none, Option.none⟩)])
    decoratorArgs

/-- Embeds `self.converters.get(sig_type, ...)`: the global converter table is a
dict keyed by the exact declared type. -/
def lookupConv (converters : List (PyType × Converter)) (sigType : PyType) :
    Option Converter :=
  (converters.find? (fun kv => kv.1 = sigType)).map (fun kv => kv.2)

/-- Embeds `converter = self.converters.get(sig_types[param], arg.converter)`
(__init__.py line 65). -/
def param_converter (converters : List (PyType × Converter)) (sigType : PyType)
    (a : Arg) : Option Converter :=
  match lookupConv converters sigType with
  | some c => some c
  | Option.none => a.converter

/-- Embeds `arg_type = converter or sig_types[param]` (__init__.py line 66);
functions are always truthy. -/
def param_arg_type (converters : List (PyType × Converter)) (sigType : PyType)
    (a : Arg) : ValType :=
  match param_converter converters sigType a with
  | some c => .conv c
  | Option.none => .pyType sigType

/-- The `get_arg` call of `cli_wrapper` (__init__.py lines 67-75): the
resolved type (or converter) together with the override's option,
shorthand and help, the signature default, and skip-resolve exactly when
a converter was found. -/
def resolve_param (converters : List (PyType × Converter)) (sigType : PyType)
    (sigDefault : PyValue) (param : String) (a : Arg) :
    Except UnsupportedTypeError ArgparseArg :=
  get_arg param (param_arg_type converters sigType a) a.option a.short a.help
    sigDefault (param_converter converters sigType a).isSome

/-- Failures of `cli_wrapper`: a decorator override naming no function
parameter (`sig_types[param]` raises `KeyError`), or an
`UnsupportedTypeError` escaping `get_arg`. -/
inductive CommandError where
  | keyError (k : String)
  | unsupported (e : UnsupportedTypeError)
deriving DecidableEq

/-- The body of the `for param, arg in args.items()` loop of
`cli_wrapper` (__init__.py lines 64-77) for one entry: look up the
signature type (a `KeyError` when the override names no parameter),
resolve, then prepend `"(<type name>) "` to the help text. -/
def cli_entry (converters : List (PyType × Converter)) (params : List Param)
    (pa : String × Arg) : Except CommandError ArgparseArg :=
  match params.find? (fun q => q.name = pa.1) with
  | Option.none => .error (.keyError pa.1)
  | some q =>
    match resolve_param converters q.annot (sig_default q) pa.1 pa.2 with
    | .error e => .error (.unsupported e)
    | .ok arg =>
      .ok { arg with
            help := some ("(" ++
              get_type_name (param_arg_type converters q.annot pa.2) ++
              ") " ++ arg.help.getD "") }

/-- The loop that appends each resolved descriptor to `cli_args`,
aborting on the first raised exception. -/
def mapExcept {α β ε : Type} (f : α → Except ε β) : List α → Except ε (List β)
  | [] => .ok []
  | x :: xs =>
    match f x with
    | .error e => .error e
    | .ok b =>
      match mapExcept f xs with
      | .error e => .error e
      | .ok bs => .ok (b :: bs)

/-- Embeds `cli_wrapper` (__init__.py lines 50-77), up to the point where the
descriptor list `cli_args` is assembled. -/
def cli_wrapper (converters : List (PyType × Converter))
    (decoratorArgs : List (String × Arg)) (params : List Param) :
    Except CommandError (List ArgparseArg) :=
  mapExcept (cli_entry converters params) (fill_args decoratorArgs params)

/-- Python truthiness of an optional string (`if self.name:`): present
and non-empty. -/
def pyTruthy : Option String → Bool
  | some s => decide (s ≠ "")
  | Option.none => false

/-- The flag-string list contributed by one optional field of
`to_argparse` (`args.append` under a truthiness test). -/
def strOptList : Option String → List String
  | some s => if s = "" then [] else [s]
  | Option.none => []

/-- The keyword arguments handed to `argparse.add_argument`
(util.py lines 48-62); a field is `Option.none` when the corresponding
dict key is absent. -/
structure AddArgKwargs where
  dest : String
  action : Option String
  help : Option String
  default : Option PyValue := none
  nargs : Option String := none
  type : Option ValType := none
  choices : Option (List PyValue) := none
deriving DecidableEq

/-- Embeds `ArgparseArg.to_argparse` (util.py lines 41-63), written as one
record: `args` collects the truthy name and shorthand; `default` is
passed through only when it is not the `...` sentinel; a positional
argument (falsy `name`) with a real default gets `nargs = "?"`; `type`
and `choices` are passed exactly when not `None`. -/
def ArgparseArg.to_argparse (a : ArgparseArg) : List String × AddArgKwargs :=
  (strOptList a.name ++ strOptList a.shorthand,
   { dest := a.id
     action := a.action
     help := a.help
     default := if a.default ≠ PyValue.ellipsis then some a.default else none
     nargs := if ¬ pyTruthy a.name ∧ a.default ≠ PyValue.ellipsis then some "?" else none
     type := a.type
     choices := a.choices })

/-- Errors of the token-parsing backend (all fatal: argparse prints a
usage message and exits non-zero; spec §4.4, §7). -/
inductive BackendError where
  | missingValue (dest : String)
  | badValue (dest : String) (tok : String)
  | badChoice (dest : String) (tok : String)
  | missingRequired (dest : String)
  | unrecognized (tokens : List String)
deriving DecidableEq

/-- Semantics of user converter functions, opaque to the program: an
environment mapping a converter and a raw token to a value (`none` is a
conversion failure). -/
def ConvEnv : Type := Converter → String → Option PyValue

/-- A flag-like token: starts with `-` and is not bare `-`
(simplification of the backend's option recognition: exact matching, no
negative-number special case). -/
def isFlagToken (t : String) : Bool :=
  match t.data with
  | '-' :: _ :: _ => true
  | _ => false

/-- Decimal digits to a number, or `none` on a non-digit. -/
def digitsToNat : List Char → Nat → Option Nat
  | [], acc => some acc
  | c :: cs, acc =>
    if c.isDigit then digitsToNat cs (acc * 10 + (c.toNat - 48)) else Option.none

/-- Python `int(token)` on the forms exercised here: an optional sign
followed by decimal digits. -/
def strToInt (s : String) : Option Int :=
  match s.data with
  | [] => Option.none
  | '-' :: ds =>
    if ds.isEmpty then Option.none
    else (digitsToNat ds 0).map (fun n => -(n : Int))
  | '+' :: ds =>
    if ds.isEmpty then Option.none
    else (digitsToNat ds 0).map (fun n => (n : Int))
  | ds => (digitsToNat ds 0).map (fun n => (n : Int))

/-- Rough acceptance test for Python `float(token)`; display-only
precision, carried as literal text. -/
def floatTokenOk (s : String) : Bool :=
  decide (s ≠ "") &&
    s.data.all (fun c => c.isDigit || c = '.' || c = '-' || c = '+' || c = 'e' || c = 'E')

/-- The backend's type coercion: apply the `type` entry (a primitive
type used as a converter, or a user converter) to a raw token; no entry
means the raw string is stored. -/
def coerceValue (env : ConvEnv) : Option ValType → String → Option PyValue
  | Option.none, s => some (.str s)
  | some (.conv c), s => env c s
  | some (.pyType .str), s => some (.str s)
  | some (.pyType .int), s => (strToInt s).map PyValue.int
  | some (.pyType .float), s => if floatTokenOk s then some (.float s) else Option.none
  | some (.pyType .path), s => some (.path s)
  | some (.pyType .bool), s => some (.bool (decide (s ≠ "")))
  | some (.pyType _), _ => Option.none

/-- The backend's `choices` restriction: the coerced value must be one
of the permitted literals when a choice set is present. -/
def choicesOk : Option (List PyValue) → PyValue → Bool
  | Option.none, _ => true
  | some cs, v => decide (v ∈ cs)

/-- One argument of the backend's grammar, exactly as projected by
`ArgparseArg.to_argparse`: option strings plus keyword arguments. -/
def ArgSpec : Type := List String × AddArgKwargs

/-- Positional argument: no option strings. -/
def isPositionalSpec (s : ArgSpec) : Bool := s.1.isEmpty

/-- Modelled from the spec: the external token-parsing backend
(`argparse`), out of scope of the repository (§1, §6) and specified only
at its interface boundary (§4.4, §6.4, §7).  First pass over the
(index-tagged) token list: a flag-like token matching an option spec
binds that spec's `dest` (presence only for `store_true`, else the next
token is coerced and checked against `choices`); a flag-like token
matching nothing is unrecognized; any other token is a positional
candidate.  Returns (option bindings in occurrence order, positional
candidates in order, unrecognized flag tokens in order). -/
def scanTokens (env : ConvEnv) (specs : List ArgSpec) :
    List (Nat × String) →
    Except BackendError
      (List (String × PyValue) × List (Nat × String) × List (Nat × String))
  | [] => .ok ([], [], [])
  | (i, t) :: rest =>
    if isFlagToken t then
      match specs.find? (fun s => s.1.contains t) with
      | some s =>
        if s.2.action = some "store_true" then do
          let (b, p, e) ← scanTokens env specs rest
          .ok ((s.2.dest, .bool true) :: b, p, e)
        else
          match rest with
          | [] => .error (.missingValue s.2.dest)
          | (_, v) :: rest' =>
            if isFlagToken v then .error (.missingValue s.2.dest)
            else
              match coerceValue env s.2.type v with
              | Option.none => .error (.badValue s.2.dest v)
              | some pv =>
                if choicesOk s.2.choices pv then do
                  let (b, p, e) ← scanTokens env specs rest'
                  .ok ((s.2.dest, pv) :: b, p, e)
                else .error (.badChoice s.2.dest v)
      | Option.none => do
        let (b, p, e) ← scanTokens env specs rest
        .ok (b, p, (i, t) :: e)
    else do
      let (b, p, e) ← scanTokens env specs rest
      .ok (b, (i, t) :: p, e)

/-- Modelled from the spec: assignment of positional candidate tokens to
the positional specs, in order.  A spec with `nargs = "?"` takes a token
only when enough tokens remain for the required specs after it
(backtracking greedy match); a required spec with no token left is a
fatal "required argument" error.  Returns the bindings and the leftover
(unrecognized) candidates. -/
def assignPositionals (env : ConvEnv) :
    List ArgSpec → List (Nat × String) →
    Except BackendError (List (String × PyValue) × List (Nat × String))
  | [], q => .ok ([], q)
  | s :: ss, q =>
    let isOpt := s.2.nargs = some "?"
    let reqAfter := (ss.filter (fun x => x.2.nargs ≠ some "?")).length
    if isOpt ∧ q.length ≤ reqAfter then
      assignPositionals env ss q
    else
      match q with
      | [] => .error (.missingRequired s.2.dest)
      | (_, tok) :: q' =>
        match coerceValue env s.2.type tok with
        | Option.none => .error (.badValue s.2.dest tok)
        | some v =>
          if choicesOk s.2.choices v then do
            let (b, left) ← assignPositionals env ss q'
            .ok ((s.2.dest, v) :: b, left)
          else .error (.badChoice s.2.dest tok)

/-- Modelled from the spec: the value the backend's result namespace
binds for one spec, given all bindings collected while parsing.  An
`append` action collects every occurrence (on top of a list default);
otherwise the last occurrence wins; a spec never bound gets its declared
default, or null when no default was projected. -/
def finalValue (s : ArgSpec) (bindings : List (String × PyValue)) : PyValue :=
  let occs := (bindings.filter (fun kv => kv.1 = s.2.dest)).map (fun kv => kv.2)
  if s.2.action = some "append" then
    match occs with
    | [] =>
      match s.2.default with
      | some d => d
      | Option.none => .none
    | _ :: _ =>
      let base : List PyValue :=
        match s.2.default with
        | some (.list l) => l
        | _ => []
      .list (base ++ occs)
  else
    match occs.getLast? with
    | some v => v
    | Option.none =>
      match s.2.default with
      | some d => d
      | Option.none => .none

/-- Modelled from the spec: `ArgumentParser.parse_known_args` — parse
what matches, return the namespace (one value per spec, in declaration
order) together with the unrecognized tokens in their original relative
order. -/
def parse_known_args (env : ConvEnv) (specs : List ArgSpec)
    (tokens : List String) :
    Except BackendError (List (String × PyValue) × List String) := do
  let indexed := tokens.enum
  let (flagB, posC, extraF) ← scanTokens env specs indexed
  let posSpecs := specs.filter (fun s => isPositionalSpec s)
  let (posB, leftover) ← assignPositionals env posSpecs posC
  let bindings := posB ++ flagB
  let ns := specs.map (fun s => (s.2.dest, finalValue s bindings))
  .ok (ns, (indexed.filter (fun it => extraF.contains it || leftover.contains it)).map
    (fun it => it.2))

/-- Modelled from the spec: `ArgumentParser.parse_args` — as
`parse_known_args`, but any unrecognized token is a fatal error (this is
literally how argparse implements it). -/
def parse_args (env : ConvEnv) (specs : List ArgSpec) (tokens : List String) :
    Except BackendError (List (String × PyValue)) :=
  match parse_known_args env specs tokens with
  | .error e => .error e
  | .ok (ns, []) => .ok ns
  | .ok (_, e :: es) => .error (.unrecognized (e :: es))

/-- Embeds `Radicli.parse` (__init__.py lines 114-133): project every
descriptor except the reserved extra-tokens identifier into the backend
grammar; with `allow_extra` use `parse_known_args` and merge the extras
into the result under the reserved key, else use `parse_args`. -/
def radicli_parse (env : ConvEnv) (extra_key : String)
    (arg_info : List ArgparseArg) (tokens : List String) (allow_extra : Bool) :
    Except BackendError (List (String × PyValue)) :=
  let specs := (arg_info.filter (fun a => decide (a.id ≠ extra_key))).map
    ArgparseArg.to_argparse
  if allow_extra then
    match parse_known_args env specs tokens with
    | .error e => .error e
    | .ok (ns, extra) => .ok (ns ++ [(extra_key, .list (extra.map PyValue.str))])
  else
    parse_args env specs tokens

/-- The trivial converter environment (no user converters consulted). -/
def env0 : ConvEnv := fun _ _ => Option.none

/-- Whether structural resolution of a declared type lands in the
boolean-flag branch (directly, or through the first non-null variant of
unions): exactly the resolutions that overwrite the declared default. -/
def resolvesToBool : PyType → Bool
  | .bool => true
  | .union as =>
    match h : as.filter (fun a => decide (a ≠ PyType.noneT)) with
    | t₀ :: _ => resolvesToBool t₀
    | [] => false
  | _ => false
termination_by t => sizeOf t
decreasing_by
  simp_wf
  have hmem : t₀ ∈ as := by
    have hmf : t₀ ∈ as.filter (fun a => decide (a ≠ PyType.noneT)) := by
      rw [h]; exact List.mem_cons_self _ _
    exact List.mem_of_mem_filter hmf
  have := List.sizeOf_lt_of_mem hmem
  omega

/-- The predicate `resolvesToBool` lifted to the `param_type` position. -/
def resolvesToBoolV : ValType → Bool
  | .pyType t => resolvesToBool t
  | .conv _ => false


/-- Unfolding of the `Union` branch of `get_arg` when at least one
non-`None` variant remains: recursion on the first one, with the
shorthand dropped and skip-resolve off. -/
theorem get_arg_union_cons_eq (p : String) (as : List PyType) (t₀ : PyType)
    (tail : List PyType)
    (hfil : as.filter (fun a => decide (a ≠ PyType.noneT)) = t₀ :: tail)
    (n sh h : Option String) (d : PyValue) :
    get_arg p (.pyType (.union as)) n sh h d false =
      get_arg p (.pyType t₀) n Option.none h d false := by
  rw [get_arg.eq_def]
  simp only [BASE_TYPES, List.mem_cons, List.not_mem_nil, or_false,
    reduceCtorEq, if_false, Bool.false_eq_true, ite_false]
  split
  next t₁ tl₁ h₁ =>
    rw [hfil] at h₁
    injection h₁ with e₁ e₂
    rw [e₁]
  next h₁ => rw [hfil] at h₁; cases h₁

/-- Unfolding of the `Union` branch of `get_arg` when no non-`None`
variant remains: the final raise, carrying the union type itself. -/
theorem get_arg_union_nil_eq (p : String) (as : List PyType)
    (hfil : as.filter (fun a => decide (a ≠ PyType.noneT)) = [])
    (n sh h : Option String) (d : PyValue) :
    get_arg p (.pyType (.union as)) n sh h d false =
      .error ⟨p, .pyType (.union as)⟩ := by
  rw [get_arg.eq_def]
  simp only [BASE_TYPES, List.mem_cons, List.not_mem_nil, or_false,
    reduceCtorEq, if_false, Bool.false_eq_true, ite_false]
  split
  next t₁ tl₁ h₁ => rw [hfil] at h₁; cases h₁
  next h₁ => rfl

/-- Embeds `resolvesToBool` on a union follows its first non-`None` variant. -/
theorem resolvesToBool_union_cons (as : List PyType) (t₀ : PyType)
    (tail : List PyType)
    (hfil : as.filter (fun a => decide (a ≠ PyType.noneT)) = t₀ :: tail) :
    resolvesToBool (.union as) = resolvesToBool t₀ := by
  rw [resolvesToBool.eq_def]
  simp only [reduceCtorEq]
  split
  next t₁ tl₁ h₁ =>
    rw [hfil] at h₁
    injection h₁ with e₁ e₂
    rw [e₁]
  next h₁ => rw [hfil] at h₁; cases h₁

/-- Shape facts preserved by every successful `get_arg` resolution: the
identifier is the parameter name, the external name and help are the
supplied ones, an absent shorthand stays absent, and the default is the
supplied one unless resolution lands in the boolean-flag branch. -/
theorem get_arg_ok_fields (p : String) :
    ∀ (pt : ValType) (n sh h : Option String) (d : PyValue) (sr : Bool)
      (a : ArgparseArg), get_arg p pt n sh h d sr = .ok a →
      a.id = p ∧ a.name = n ∧ a.help = h ∧
      (sh = Option.none → a.shorthand = Option.none) ∧
      (resolvesToBoolV pt = false → a.default = d) := by
  intro pt n sh h d sr a hok
  induction pt, n, sh, h, d, sr using get_arg.induct p generalizing a with
  | case1 pt n sh h d =>
    rw [get_arg.eq_def] at hok
    by_cases hd : d = PyValue.ellipsis <;> simp [hd] at hok <;> subst hok <;>
      simp [hd]
  | case2 n sh h d sr hsr c =>
    rw [get_arg.eq_def] at hok
    simp [hsr] at hok
  | case3 n sh h d sr hsr t ht =>
    rw [get_arg.eq_def] at hok
    by_cases hd : d = PyValue.ellipsis <;> simp [hd, hsr, ht] at hok <;>
      subst hok <;> simp [hd]
  | case4 n sh h d sr hsr hb =>
    rw [get_arg.eq_def] at hok
    by_cases hd : d = PyValue.ellipsis <;> simp [hd, hsr, hb] at hok <;>
      subst hok <;> simp [hd, resolvesToBoolV, resolvesToBool]
  | case5 n sh h d sr hsr v vs ht htb =>
    rw [get_arg.eq_def] at hok
    by_cases hd : d = PyValue.ellipsis <;> simp [hd, hsr, ht, htb] at hok <;>
      subst hok <;> simp [hd]
  | case6 n sh h d sr hsr as ht htb =>
    rw [get_arg.eq_def] at hok
    by_cases hd : d = PyValue.ellipsis <;> simp [hd, hsr, ht, htb] at hok <;>
      subst hok <;> simp [hd]
  | case7 n sh h d sr hsr as ht htb =>
    rw [get_arg.eq_def] at hok
    by_cases hd : d = PyValue.ellipsis <;> simp [hd, hsr, ht, htb] at hok <;>
      subst hok <;> simp [hd]
  | case8 n sh h d sr hsr as t₀ tail hfil ht htb ih =>
    rw [Bool.not_eq_true] at hsr
    subst hsr
    rw [get_arg_union_cons_eq p as t₀ tail hfil] at hok
    obtain ⟨h1, h2, h3, h4, h5⟩ := ih _ hok
    refine ⟨h1, h2, h3, fun _ => h4 rfl, fun hrb => h5 ?_⟩
    simpa [resolvesToBoolV, resolvesToBool_union_cons as t₀ tail hfil] using hrb
  | case9 n sh h d sr hsr as hfil ht htb =>
    rw [Bool.not_eq_true] at hsr
    subst hsr
    rw [get_arg_union_nil_eq p as hfil] at hok
    cases hok
  | case10 n sh h d sr hsr t ht htb hnl hnli hnit hnu =>
    rw [get_arg.eq_def] at hok
    cases t with
    | str => exact absurd (by simp [BASE_TYPES]) ht
    | int => exact absurd (by simp [BASE_TYPES]) ht
    | float => exact absurd (by simp [BASE_TYPES]) ht
    | path => exact absurd (by simp [BASE_TYPES]) ht
    | bool => exact absurd rfl htb
    | noneT => simp [hsr, BASE_TYPES] at hok
    | custom nm => simp [hsr, BASE_TYPES] at hok
    | literal vals =>
      cases vals with
      | nil => simp [hsr, BASE_TYPES] at hok
      | cons v vs => exact (hnl v vs rfl).elim
    | list as => exact (hnli as rfl).elim
    | iterable as => exact (hnit as rfl).elim
    | union as => exact (hnu as rfl).elim

/-- Embeds `find_base_type` on the one-element argument tuple a Python
sequence type carries: the element itself when it is a known primitive,
else the string default. -/
theorem find_base_type_singleton (t : PyType) :
    find_base_type [t] = if t ∈ BASE_TYPES then t else .str := by
  cases t <;> simp [find_base_type, BASE_TYPES, List.find?]

/-- C5: a parameter declared `bool` (no converter) resolves to a flag
descriptor: `store_true` action (presence only, no value token), no
coercion type, and default `false` — whatever default the source
function declares, including an explicit `True`. -/
theorem c5_bool_flag_descriptor (p : String) (n sh h : Option String)
    (d : PyValue) :
    get_arg p (.pyType .bool) n sh h d false =
      .ok ⟨p, n, sh, Option.none, .bool false, some "store_true",
           Option.none, h⟩ := by
  rw [get_arg.eq_def]
  by_cases hd : d = PyValue.ellipsis <;> simp [hd, BASE_TYPES]

/-- C6: a sequence/iterable-of-T declaration resolves to a repeated
(`append`) descriptor whose value type is T itself when T is a known
primitive and string otherwise; in particular sequence-of-int gives
value type int. -/
theorem c6_sequence_descriptor (p : String) (t : PyType)
    (n sh h : Option String) (d : PyValue) :
    (get_arg p (.pyType (.list [t])) n sh h d false =
      .ok ⟨p, n, sh, some (.pyType (if t ∈ BASE_TYPES then t else .str)), d,
           some "append", Option.none, h⟩) ∧
    (get_arg p (.pyType (.iterable [t])) n sh h d false =
      .ok ⟨p, n, sh, some (.pyType (if t ∈ BASE_TYPES then t else .str)), d,
           some "append", Option.none, h⟩) ∧
    (get_arg p (.pyType (.list [.int])) n sh h d false =
      .ok ⟨p, n, sh, some (.pyType .int), d, some "append", Option.none,
           h⟩) := by
  refine ⟨?_, ?_, ?_⟩ <;>
    (rw [get_arg.eq_def]
     by_cases hd : d = PyValue.ellipsis <;>
       simp [hd, BASE_TYPES, find_base_type_singleton])

/-- C3 counterexample: with a shorthand override supplied, resolving
`Optional[str]` is not identical to resolving `str` with the same
inputs — the union resolution drops the shorthand. -/
theorem c3_optional_str_counterexample :
    get_arg "p" (.pyType (.union [.str, .noneT])) Option.none (some "-s")
        Option.none .ellipsis false ≠
      get_arg "p" (.pyType .str) Option.none (some "-s") Option.none .ellipsis
        false := by
  rw [get_arg_union_cons_eq "p" [.str, .noneT] .str [] (by decide)]
  rw [get_arg.eq_def, get_arg.eq_def]
  simp [BASE_TYPES]

/-- C3 (amended): resolving `Optional[str]` produces exactly the
descriptor of resolving `str` with the same parameter name, external
name, help and default, but with no shorthand (the union branch never
forwards it). -/
theorem c3_optional_str_resolution (p : String) (n sh h : Option String)
    (d : PyValue) :
    get_arg p (.pyType (.union [.str, .noneT])) n sh h d false =
      get_arg p (.pyType .str) n Option.none h d false :=
  get_arg_union_cons_eq p [.str, .noneT] .str [] (by decide) n sh h d

/-- C9: any successful resolution of a union type yields a descriptor
with no shorthand, even when a shorthand override was supplied: the
recursive call on the first non-null variant forwards name, help and
default but not the shorthand. -/
theorem c9_union_drops_shorthand (p : String) (ts : List PyType)
    (n sh h : Option String) (d : PyValue) (a : ArgparseArg)
    (hok : get_arg p (.pyType (.union ts)) n sh h d false = .ok a) :
    a.shorthand = Option.none := by
  rcases hfil : ts.filter (fun x => decide (x ≠ PyType.noneT)) with _ | ⟨t₀, tail⟩
  · rw [get_arg_union_nil_eq p ts hfil] at hok
    cases hok
  · rw [get_arg_union_cons_eq p ts t₀ tail hfil] at hok
    exact (get_arg_ok_fields p _ _ _ _ _ _ _ hok).2.2.2.1 rfl

/-- C9 witness: the concrete resolution of `Optional[str]` with
shorthand override `-s` succeeds, and the theorem yields that the
resulting descriptor's shorthand is absent. -/
theorem c9_union_drops_shorthand_witness :
    get_arg "p" (.pyType (.union [.str, .noneT])) Option.none (some "-s")
        Option.none .ellipsis false =
      .ok ⟨"p", Option.none, Option.none, some (.pyType .str), .ellipsis,
           Option.none, Option.none, Option.none⟩ ∧
    (⟨"p", Option.none, Option.none, some (.pyType .str), .ellipsis,
      Option.none, Option.none, Option.none⟩ : ArgparseArg).shorthand =
      Option.none := by
  have heval : get_arg "p" (.pyType (.union [.str, .noneT])) Option.none
      (some "-s") Option.none .ellipsis false =
      .ok ⟨"p", Option.none, Option.none, some (.pyType .str), .ellipsis,
           Option.none, Option.none, Option.none⟩ := by
    rw [get_arg_union_cons_eq "p" [.str, .noneT] .str [] (by decide)]
    rw [get_arg.eq_def]
    simp [BASE_TYPES]
  exact ⟨heval,
    c9_union_drops_shorthand "p" [.str, .noneT] Option.none (some "-s")
      Option.none .ellipsis _ heval⟩

/-- The spec's reducibility grammar for the resolver (§4.1, §7): a
declared type is supported when it is a known primitive, boolean, a
literal type with at least one option, a sequence/iterable, or a union
whose resolution succeeds — per §4.1 step 6, the union reduces to its
first non-`None` variant. -/
def supportedType : PyType → Bool
  | .str => true
  | .int => true
  | .float => true
  | .path => true
  | .bool => true
  | .literal vs => decide (vs ≠ [])
  | .list _ => true
  | .iterable _ => true
  | .union as =>
    match h : as.filter (fun a => decide (a ≠ PyType.noneT)) with
    | t₀ :: _ => supportedType t₀
    | [] => false
  | _ => false
termination_by t => sizeOf t
decreasing_by
  simp_wf
  have hmem : t₀ ∈ as := by
    have hmf : t₀ ∈ as.filter (fun a => decide (a ≠ PyType.noneT)) := by
      rw [h]; exact List.mem_cons_self _ _
    exact List.mem_of_mem_filter hmf
  have := List.sizeOf_lt_of_mem hmem
  omega

/-- The type an `UnsupportedTypeError` raised by the resolver actually
carries: the declared type itself, except under unions, where it is the
(recursively first) non-`None` variant at which resolution failed. -/
def offenderType : PyType → PyType
  | .union as =>
    match h : as.filter (fun a => decide (a ≠ PyType.noneT)) with
    | t₀ :: _ => offenderType t₀
    | [] => .union as
  | t => t
termination_by t => sizeOf t
decreasing_by
  simp_wf
  have hmem : t₀ ∈ as := by
    have hmf : t₀ ∈ as.filter (fun a => decide (a ≠ PyType.noneT)) := by
      rw [h]; exact List.mem_cons_self _ _
    exact List.mem_of_mem_filter hmf
  have := List.sizeOf_lt_of_mem hmem
  omega

/-- The predicate `supportedType` lifted to the `param_type` position (a raw converter
reaching structural resolution is never supported). -/
def supportedV : ValType → Bool
  | .pyType t => supportedType t
  | .conv _ => false

/-- The map `offenderType` lifted to the `param_type` position. -/
def offenderV : ValType → ValType
  | .pyType t => .pyType (offenderType t)
  | .conv c => .conv c

theorem supportedType_union_cons (as : List PyType) (t₀ : PyType)
    (tail : List PyType)
    (hfil : as.filter (fun a => decide (a ≠ PyType.noneT)) = t₀ :: tail) :
    supportedType (.union as) = supportedType t₀ := by
  rw [supportedType.eq_def]
  simp only [reduceCtorEq]
  split
  next t₁ tl₁ h₁ =>
    rw [hfil] at h₁
    injection h₁ with e₁ e₂
    rw [e₁]
  next h₁ => rw [hfil] at h₁; cases h₁

theorem supportedType_union_nil (as : List PyType)
    (hfil : as.filter (fun a => decide (a ≠ PyType.noneT)) = []) :
    supportedType (.union as) = false := by
  rw [supportedType.eq_def]
  simp only [reduceCtorEq]
  split
  next t₁ tl₁ h₁ => rw [hfil] at h₁; cases h₁
  next h₁ => rfl

theorem offenderType_union_cons (as : List PyType) (t₀ : PyType)
    (tail : List PyType)
    (hfil : as.filter (fun a => decide (a ≠ PyType.noneT)) = t₀ :: tail) :
    offenderType (.union as) = offenderType t₀ := by
  rw [offenderType.eq_def]
  simp only [reduceCtorEq]
  split
  next t₁ tl₁ h₁ =>
    rw [hfil] at h₁
    injection h₁ with e₁ e₂
    rw [e₁]
  next h₁ => rw [hfil] at h₁; cases h₁

theorem offenderType_union_nil (as : List PyType)
    (hfil : as.filter (fun a => decide (a ≠ PyType.noneT)) = []) :
    offenderType (.union as) = .union as := by
  rw [offenderType.eq_def]
  simp only [reduceCtorEq]
  split
  next t₁ tl₁ h₁ => rw [hfil] at h₁; cases h₁
  next h₁ => rfl

/-- Structural resolution raises exactly on the unsupported types, and
the error carries the parameter name and the offender type. -/
theorem get_arg_error_characterization (p : String) :
    ∀ (pt : ValType) (n sh h : Option String) (d : PyValue) (sr : Bool),
      sr = false →
      (((∃ e, get_arg p pt n sh h d sr = .error e) ↔ supportedV pt = false) ∧
       (∀ e, get_arg p pt n sh h d sr = .error e → e = ⟨p, offenderV pt⟩)) := by
  intro pt n sh h d sr
  induction pt, n, sh, h, d, sr using get_arg.induct p with
  | case1 pt n sh h d => intro h0; cases h0
  | case2 n sh h d sr hsr c =>
    intro h0
    subst h0
    rw [get_arg.eq_def]
    by_cases hd : d = PyValue.ellipsis <;>
      simp [hd, supportedV, offenderV]
  | case3 n sh h d sr hsr t ht =>
    intro h0
    subst h0
    rw [get_arg.eq_def]
    have ht' := ht
    simp only [BASE_TYPES, List.mem_cons, List.not_mem_nil, or_false] at ht'
    rcases ht' with rfl | rfl | rfl | rfl <;>
      by_cases hd : d = PyValue.ellipsis <;>
        simp [hd, supportedV, supportedType, BASE_TYPES]
  | case4 n sh h d sr hsr hb =>
    intro h0
    subst h0
    rw [get_arg.eq_def]
    by_cases hd : d = PyValue.ellipsis <;>
      simp [hd, hb, supportedV, supportedType, BASE_TYPES]
  | case5 n sh h d sr hsr v vs ht htb =>
    intro h0
    subst h0
    rw [get_arg.eq_def]
    by_cases hd : d = PyValue.ellipsis <;>
      simp [hd, ht, htb, supportedV, supportedType, BASE_TYPES]
  | case6 n sh h d sr hsr as ht htb =>
    intro h0
    subst h0
    rw [get_arg.eq_def]
    by_cases hd : d = PyValue.ellipsis <;>
      simp [hd, ht, htb, supportedV, supportedType, BASE_TYPES]
  | case7 n sh h d sr hsr as ht htb =>
    intro h0
    subst h0
    rw [get_arg.eq_def]
    by_cases hd : d = PyValue.ellipsis <;>
      simp [hd, ht, htb, supportedV, supportedType, BASE_TYPES]
  | case8 n sh h d sr hsr as t₀ tail hfil ht htb ih =>
    intro h0
    subst h0
    rw [get_arg_union_cons_eq p as t₀ tail hfil]
    obtain ⟨ih1, ih2⟩ := ih rfl
    constructor
    · rw [ih1]
      simp [supportedV, supportedType_union_cons as t₀ tail hfil]
    · intro e he
      rw [ih2 e he]
      simp [offenderV, offenderType_union_cons as t₀ tail hfil]
  | case9 n sh h d sr hsr as hfil ht htb =>
    intro h0
    subst h0
    rw [get_arg_union_nil_eq p as hfil]
    constructor
    · simp [supportedV, supportedType_union_nil as hfil]
    · intro e he
      injection he with he₁
      rw [← he₁]
      simp [offenderV, offenderType_union_nil as hfil]
  | case10 n sh h d sr hsr t ht htb hnl hnli hnit hnu =>
    intro h0
    subst h0
    rw [get_arg.eq_def]
    cases t with
    | str => exact absurd (by simp [BASE_TYPES]) ht
    | int => exact absurd (by simp [BASE_TYPES]) ht
    | float => exact absurd (by simp [BASE_TYPES]) ht
    | path => exact absurd (by simp [BASE_TYPES]) ht
    | bool => exact absurd rfl htb
    | noneT =>
      by_cases hd : d = PyValue.ellipsis <;>
        simp [hd, BASE_TYPES, supportedV, supportedType, offenderV,
          offenderType]
    | custom nm =>
      by_cases hd : d = PyValue.ellipsis <;>
        simp [hd, BASE_TYPES, supportedV, supportedType, offenderV,
          offenderType]
    | literal vals =>
      cases vals with
      | nil =>
        by_cases hd : d = PyValue.ellipsis <;>
          simp [hd, BASE_TYPES, supportedV, supportedType, offenderV,
            offenderType]
      | cons v vs => exact (hnl v vs rfl).elim
    | list as => exact (hnli as rfl).elim
    | iterable as => exact (hnit as rfl).elim
    | union as => exact (hnu as rfl).elim

/-- C7 (amended): with no converter supplied, the resolver raises
`UnsupportedTypeError` exactly when the declared type cannot be reduced
to a known primitive, boolean flag, non-empty literal/choice set,
sequence, or optional/union resolved through its first non-null
variant; there is no silent fallback to string for an unhandled
top-level type, and the raised error carries the offending parameter
name together with the type at which resolution failed — the declared
type itself, except under unions, where it is the (recursively first)
non-null variant. -/
theorem c7_unsupported_exactness (p : String) (t : PyType)
    (n sh h : Option String) (d : PyValue) :
    ((∃ e, get_arg p (.pyType t) n sh h d false = .error e) ↔
      supportedType t = false) ∧
    (∀ e, get_arg p (.pyType t) n sh h d false = .error e →
      e = ⟨p, .pyType (offenderType t)⟩) := by
  obtain ⟨h1, h2⟩ :=
    get_arg_error_characterization p (.pyType t) n sh h d false rfl
  exact ⟨by simpa [supportedV] using h1,
    fun e he => by simpa [offenderV] using h2 e he⟩

/-- C7 counterexample: resolving `Union[X, int]` for an unsupported
class `X` raises an error whose type field is `X`, not the declared
union type — the claim that the error carries the declared type fails
here. -/
theorem c7_error_payload_counterexample :
    get_arg "p" (.pyType (.union [.custom "X", .int])) Option.none Option.none
        Option.none .ellipsis false =
      .error ⟨"p", .pyType (.custom "X")⟩ ∧
    ValType.pyType (.custom "X") ≠
      ValType.pyType (.union [.custom "X", .int]) := by
  constructor
  · rw [get_arg_union_cons_eq "p" [.custom "X", .int] (.custom "X") [.int]
      (by decide)]
    rw [get_arg.eq_def]
    simp [BASE_TYPES]
  · decide

/-- C7 witness: the amended theorem applied at the unsupported class
`X`: resolution fails there, and the error payload is the parameter
name with the offender type. -/
theorem c7_unsupported_witness :
    get_arg "w" (.pyType (.custom "X")) Option.none Option.none Option.none
        .ellipsis false = .error ⟨"w", .pyType (.custom "X")⟩ ∧
    (⟨"w", .pyType (.custom "X")⟩ : UnsupportedTypeError) =
      ⟨"w", .pyType (offenderType (.custom "X"))⟩ := by
  have heval : get_arg "w" (.pyType (.custom "X")) Option.none Option.none
      Option.none .ellipsis false = .error ⟨"w", .pyType (.custom "X")⟩ := by
    rw [get_arg.eq_def]
    simp [BASE_TYPES]
  exact ⟨heval,
    (c7_unsupported_exactness "w" (.custom "X") Option.none Option.none
      Option.none .ellipsis).2 _ heval⟩

/-- C4: whenever a converter is available — from the global table keyed
by the exact declared type, or else from the override — resolution
skips all type inspection: it succeeds for every declared type
(including otherwise-unsupported ones), and the descriptor carries the
converter as its value type together with the override's external name,
shorthand and help and the supplied default. -/
theorem c4_converter_bypass (table : List (PyType × Converter)) (t : PyType)
    (d : PyValue) (p : String) (a : Arg) (c : Converter)
    (hc : lookupConv table t = some c ∨
      (lookupConv table t = Option.none ∧ a.converter = some c)) :
    resolve_param table t d p a =
      .ok ⟨p, a.option, a.short, some (.conv c), d, Option.none, Option.none,
           a.help⟩ := by
  have hpc : param_converter table t a = some c := by
    rcases hc with h1 | ⟨h1, h2⟩
    · simp [param_converter, h1]
    · simp [param_converter, h1, h2]
  simp only [resolve_param, param_arg_type, hpc, Option.isSome_some]
  rw [get_arg.eq_def]
  by_cases hd : d = PyValue.ellipsis <;> simp [hd]

/-- C4 witness: a converter-table entry for the otherwise-unsupported
class `MyObj` drives resolution to the converter descriptor. -/
theorem c4_converter_bypass_witness :
    resolve_param [(.custom "MyObj", ⟨"parse_obj"⟩)] (.custom "MyObj")
      .ellipsis "o" ⟨some "--obj", some "-o", some "an object", Option.none⟩ =
      .ok ⟨"o", some "--obj", some "-o", some (.conv ⟨"parse_obj"⟩), .ellipsis,
           Option.none, Option.none, some "an object"⟩ :=
  c4_converter_bypass [(.custom "MyObj", ⟨"parse_obj"⟩)] (.custom "MyObj")
    .ellipsis "o" ⟨some "--obj", some "-o", some "an object", Option.none⟩
    ⟨"parse_obj"⟩ (Or.inl (by decide))

/-- One step of the `args`-filling fold. -/
theorem fill_args_cons (dargs : List (String × Arg)) (p : Param)
    (ps : List Param) :
    fill_args dargs (p :: ps) =
      fill_args
        (if dargs.any (fun kv => kv.1 = p.name) then dargs
         else dargs ++ [(p.name, ⟨Option.none, Option.none, Option.none,
           Option.none⟩)]) ps := rfl

/-- The keys of the filled `args` dict: decorator keys first (in mention
order), then the unmentioned parameter names in declared order. -/
theorem fill_args_keys :
    ∀ (params : List Param) (dargs : List (String × Arg)),
      (params.map (fun p => p.name)).Nodup →
      (fill_args dargs params).map (fun kv => kv.1) =
        dargs.map (fun kv => kv.1) ++
          (params.map (fun p => p.name)).filter
            (fun nm => !(dargs.any (fun kv => kv.1 = nm))) := by
  intro params
  induction params with
  | nil => intro dargs hnd; simp [fill_args]
  | cons p ps ih =>
    intro dargs hnd
    rw [fill_args_cons]
    simp only [List.map_cons, List.nodup_cons] at hnd
    obtain ⟨hp, hps⟩ := hnd
    by_cases hmem : dargs.any (fun kv => kv.1 = p.name)
    · rw [if_pos hmem, ih dargs hps, List.map_cons, List.filter_cons]
      simp [hmem]
    · rw [if_neg hmem, ih _ hps, List.map_cons, List.filter_cons]
      simp only [hmem, Bool.not_false, if_pos]
      rw [List.map_append]
      have hfeq : (ps.map (fun q => q.name)).filter
          (fun nm => !((dargs ++ [(p.name, (⟨Option.none, Option.none,
            Option.none, Option.none⟩ : Arg))]).any (fun kv => kv.1 = nm))) =
          (ps.map (fun q => q.name)).filter
            (fun nm => !(dargs.any (fun kv => kv.1 = nm))) := by
        apply List.filter_congr
        intro nm hnm
        have hne : p.name ≠ nm := fun he => hp (he ▸ hnm)
        simp [List.any_append, hne]
      rw [hfeq]
      simp

/-- Success of `mapExcept`: a per-element key map carries over to the
result list. -/
theorem mapExcept_map_key {α β γ ε : Type} (f : α → Except ε β)
    (g : β → γ) (k : α → γ)
    (hf : ∀ x b, f x = .ok b → g b = k x) :
    ∀ (xs : List α) (l : List β), mapExcept f xs = .ok l →
      l.map g = xs.map k := by
  intro xs
  induction xs with
  | nil =>
    intro l hl
    injection hl with hl
    rw [← hl]
    simp
  | cons x xs ih =>
    intro l hl
    cases hfx : f x with
    | error e => simp [mapExcept, hfx] at hl
    | ok b =>
      cases hml : mapExcept f xs with
      | error e => simp [mapExcept, hfx, hml] at hl
      | ok bs =>
        simp only [mapExcept, hfx, hml] at hl
        injection hl with hl
        rw [← hl]
        simp only [List.map_cons, hf x b hfx, ih bs hml]

/-- Every descriptor `cli_entry` produces carries the name of the
`args`-dict entry it was resolved from as its identifier. -/
theorem cli_entry_id (conv : List (PyType × Converter))
    (params : List Param) (pa : String × Arg) (b : ArgparseArg)
    (hfb : cli_entry conv params pa = .ok b) :
    b.id = pa.1 := by
  cases hq : params.find? (fun q => q.name = pa.1) with
  | none => simp [cli_entry, hq] at hfb
  | some q =>
    cases hr : resolve_param conv q.annot (sig_default q) pa.1 pa.2 with
    | error e => simp [cli_entry, hq, hr] at hfb
    | ok arg =>
      simp only [cli_entry, hq, hr] at hfb
      injection hfb with hfb
      rw [← hfb]
      rw [resolve_param] at hr
      exact (get_arg_ok_fields pa.1 _ _ _ _ _ _ _ hr).1

/-- C1 (amended): when registration succeeds, the descriptor list has
exactly one descriptor per function parameter — its identifiers are a
permutation of the parameter names — but their order is: the parameters
mentioned in the decorator override mapping first, in mention order,
followed by the remaining parameters in declared order (which equals
the declared order only when the mentioned parameters form a matching
prefix of it). -/
theorem c1_descriptor_ids (conv : List (PyType × Converter))
    (dargs : List (String × Arg)) (params : List Param)
    (l : List ArgparseArg)
    (hnodupP : (params.map (fun p => p.name)).Nodup)
    (hnodupD : (dargs.map (fun kv => kv.1)).Nodup)
    (hsub : ∀ k ∈ dargs.map (fun kv => kv.1), k ∈ params.map (fun p => p.name))
    (hok : cli_wrapper conv dargs params = .ok l) :
    l.map (fun a => a.id) =
      dargs.map (fun kv => kv.1) ++
        (params.map (fun p => p.name)).filter
          (fun nm => !(dargs.any (fun kv => kv.1 = nm))) ∧
    (l.map (fun a => a.id)).Perm (params.map (fun p => p.name)) := by
  have hids : l.map (fun a => a.id) =
      (fill_args dargs params).map (fun kv => kv.1) := by
    refine mapExcept_map_key _ _ _ ?_ _ l hok
    intro pa b hfb
    exact cli_entry_id conv params pa b hfb
  have hkeys := fill_args_keys params dargs hnodupP
  constructor
  · rw [hids, hkeys]
  · rw [hids, hkeys]
    have hpart := List.filter_append_perm
      (fun nm => dargs.any (fun kv => kv.1 = nm))
      (params.map (fun p => p.name))
    have hmentioned :
        (dargs.map (fun kv => kv.1)).Perm
          ((params.map (fun p => p.name)).filter
            (fun nm => dargs.any (fun kv => kv.1 = nm))) := by
      rw [List.perm_ext_iff_of_nodup hnodupD
        (List.Nodup.filter _ hnodupP)]
      intro nm
      simp only [List.mem_filter, List.any_eq_true]
      constructor
      · intro hmem
        refine ⟨hsub nm hmem, ?_⟩
        rcases List.mem_map.mp hmem with ⟨kv, hkv, rfl⟩
        exact ⟨kv, hkv, by simp⟩
      · rintro ⟨hmemP, kv, hkv, hkey⟩
        have hk : kv.1 = nm := by simpa using hkey
        rw [← hk]
        exact List.mem_map_of_mem _ hkv
    exact (hmentioned.append_right _).trans hpart

/-- C1 counterexample: a function with parameters `(a, b)` registered
with an override mentioning only `b` produces the descriptors in order
`[b, a]`, not the declared order `[a, b]`. -/
theorem c1_order_counterexample :
    (cli_wrapper [] [("b", ⟨Option.none, Option.none, Option.none,
        Option.none⟩)]
        [⟨"a", .str, Option.none⟩, ⟨"b", .str, Option.none⟩]).map
      (fun l => l.map (fun a => a.id)) = .ok ["b", "a"] ∧
    (["b", "a"] : List String) ≠ ["a", "b"] := by
  have hga : ∀ nm : String, get_arg nm (.pyType .str) Option.none Option.none
      Option.none .ellipsis false =
      .ok ⟨nm, Option.none, Option.none, some (.pyType .str), .ellipsis,
           Option.none, Option.none, Option.none⟩ := by
    intro nm
    rw [get_arg.eq_def]
    simp [BASE_TYPES]
  constructor
  · simp [cli_wrapper, fill_args, mapExcept, cli_entry, resolve_param,
      param_arg_type, param_converter, lookupConv, sig_default, hga,
      get_type_name, pyTypeName, List.find?, Except.map]
  · decide

/-- C1 witness: the amended theorem applied to the counterexample
input: the identifiers come out as `["b", "a"]` — override-mentioned
parameter first — and form a permutation of the declared parameter
names `["a", "b"]`. -/
theorem c1_descriptor_ids_witness :
    cli_wrapper [] [("b", ⟨Option.none, Option.none, Option.none,
        Option.none⟩)]
      [⟨"a", .str, Option.none⟩, ⟨"b", .str, Option.none⟩] =
      .ok [⟨"b", Option.none, Option.none, some (.pyType .str), .ellipsis,
            Option.none, Option.none, some "(str) "⟩,
           ⟨"a", Option.none, Option.none, some (.pyType .str), .ellipsis,
            Option.none, Option.none, some "(str) "⟩] ∧
    ([(⟨"b", Option.none, Option.none, some (.pyType .str), .ellipsis,
        Option.none, Option.none, some "(str) "⟩ : ArgparseArg),
      ⟨"a", Option.none, Option.none, some (.pyType .str), .ellipsis,
       Option.none, Option.none, some "(str) "⟩].map (fun a => a.id) =
      ["b", "a"]) ∧
    ([(⟨"b", Option.none, Option.none, some (.pyType .str), .ellipsis,
        Option.none, Option.none, some "(str) "⟩ : ArgparseArg),
      ⟨"a", Option.none, Option.none, some (.pyType .str), .ellipsis,
       Option.none, Option.none, some "(str) "⟩].map
        (fun a => a.id)).Perm ["a", "b"] := by
  have hga : ∀ nm : String, get_arg nm (.pyType .str) Option.none Option.none
      Option.none .ellipsis false =
      .ok ⟨nm, Option.none, Option.none, some (.pyType .str), .ellipsis,
           Option.none, Option.none, Option.none⟩ := by
    intro nm
    rw [get_arg.eq_def]
    simp [BASE_TYPES]
  have hok : cli_wrapper [] [("b", ⟨Option.none, Option.none, Option.none,
      Option.none⟩)]
      [⟨"a", .str, Option.none⟩, ⟨"b", .str, Option.none⟩] =
      .ok [⟨"b", Option.none, Option.none, some (.pyType .str), .ellipsis,
            Option.none, Option.none, some "(str) "⟩,
           ⟨"a", Option.none, Option.none, some (.pyType .str), .ellipsis,
            Option.none, Option.none, some "(str) "⟩] := by
    simp [cli_wrapper, fill_args, mapExcept, cli_entry, resolve_param,
      param_arg_type, param_converter, lookupConv, sig_default, hga,
      get_type_name, pyTypeName, List.find?]
  have hc := c1_descriptor_ids [] [("b", ⟨Option.none, Option.none,
      Option.none, Option.none⟩)]
    [⟨"a", .str, Option.none⟩, ⟨"b", .str, Option.none⟩] _
    (by decide) (by decide) (by decide) hok
  exact ⟨hok, by rw [hc.1]; decide, hc.2⟩

/-- The dest the projection hands to the backend is the descriptor's
identifier. -/
theorem to_argparse_dest (a : ArgparseArg) : (a.to_argparse).2.dest = a.id :=
  rfl

/-- Shape of a successful `parse_known_args`: the namespace binds
exactly the projected dests, in declaration order, and the extras are a
subsequence of the input tokens (their original relative order). -/
theorem parse_known_args_ok (env : ConvEnv) (specs : List ArgSpec)
    (tokens : List String) (ns : List (String × PyValue))
    (extras : List String)
    (h : parse_known_args env specs tokens = .ok (ns, extras)) :
    ns.map (fun kv => kv.1) = specs.map (fun s => s.2.dest) ∧
    extras.Sublist tokens := by
  unfold parse_known_args at h
  cases hscan : scanTokens env specs tokens.enum with
  | error e => simp [hscan, Bind.bind, Except.bind] at h
  | ok r =>
    obtain ⟨flagB, posC, extraF⟩ := r
    cases hassign : assignPositionals env
        (specs.filter (fun s => isPositionalSpec s)) posC with
    | error e => simp [hscan, hassign, Bind.bind, Except.bind] at h
    | ok r2 =>
      obtain ⟨posB, leftover⟩ := r2
      simp only [hscan, hassign, Bind.bind, Except.bind, pure] at h
      injection h with h
      injection h with hns hex
      constructor
      · rw [← hns]
        simp
      · rw [← hex]
        have h1 := List.filter_sublist (p := fun it =>
          extraF.contains it || leftover.contains it) tokens.enum
        have h2 := h1.map Prod.snd
        rw [List.enum_map_snd] at h2
        exact h2

/-- C8: the reserved extra-tokens identifier is never projected into the
backend grammar; with `allow_extra` the unrecognized tokens are returned
under the reserved key in their original relative order (a subsequence
of the input) and cause no error, and the same tokens are a fatal
`unrecognized` error without `allow_extra`, whose successful results
never contain the reserved key. -/
theorem c8_extra_tokens (env : ConvEnv) (ek : String)
    (arg_info : List ArgparseArg) (tokens : List String) :
    (∀ s ∈ (arg_info.filter (fun a => decide (a.id ≠ ek))).map
        ArgparseArg.to_argparse, s.2.dest ≠ ek) ∧
    (∀ ns extras,
      parse_known_args env
          ((arg_info.filter (fun a => decide (a.id ≠ ek))).map
            ArgparseArg.to_argparse) tokens = .ok (ns, extras) →
      radicli_parse env ek arg_info tokens true =
        .ok (ns ++ [(ek, .list (extras.map PyValue.str))]) ∧
      extras.Sublist tokens ∧
      (extras ≠ [] → radicli_parse env ek arg_info tokens false =
        .error (.unrecognized extras))) ∧
    (∀ m, radicli_parse env ek arg_info tokens false = .ok m →
      ∀ v, (ek, v) ∉ m) := by
  have hdest : ∀ s ∈ (arg_info.filter (fun a => decide (a.id ≠ ek))).map
      ArgparseArg.to_argparse, s.2.dest ≠ ek := by
    intro s hs
    rcases List.mem_map.mp hs with ⟨a, ha, rfl⟩
    rw [to_argparse_dest]
    exact of_decide_eq_true (List.mem_filter.mp ha).2
  refine ⟨hdest, ?_, ?_⟩
  · intro ns extras hpk
    obtain ⟨hshape, hsub⟩ := parse_known_args_ok env _ tokens ns extras hpk
    refine ⟨?_, hsub, ?_⟩
    · unfold radicli_parse
      rw [if_pos rfl, hpk]
    · intro hne
      unfold radicli_parse parse_args
      rw [if_neg (by simp), hpk]
      cases extras with
      | nil => exact absurd rfl hne
      | cons e es => rfl
  · intro m hm v hmem
    unfold radicli_parse parse_args at hm
    rw [if_neg (by simp)] at hm
    cases hpk : parse_known_args env
        ((arg_info.filter (fun a => decide (a.id ≠ ek))).map
          ArgparseArg.to_argparse) tokens with
    | error e => rw [hpk] at hm; cases hm
    | ok r =>
      obtain ⟨ns, extras⟩ := r
      rw [hpk] at hm
      cases extras with
      | cons e es => cases hm
      | nil =>
        injection hm with hm
        obtain ⟨hshape, _⟩ := parse_known_args_ok env _ tokens ns [] hpk
        rw [← hm] at hmem
        have hek : ek ∈ ns.map (fun kv => kv.1) :=
          List.mem_map_of_mem (fun kv => kv.1) hmem
        rw [hshape] at hek
        rcases List.mem_map.mp hek with ⟨s, hs, hsek⟩
        exact hdest s hs hsek

/-- C8 witness: the spec's end-to-end scenario 4 — one positional
integer parameter with `allow_extra`: tokens `["1", "--flag", "x"]`
yield the value binding plus the extras under the reserved key in their
original order, and the same tokens are a fatal error without
`allow_extra`. -/
theorem c8_extra_tokens_witness :
    radicli_parse env0 "_extra"
      [⟨"a", Option.none, Option.none, some (.pyType .int), .ellipsis,
        Option.none, Option.none, Option.none⟩]
      ["1", "--flag", "x"] true =
      .ok [("a", .int 1), ("_extra", .list [.str "--flag", .str "x"])] ∧
    (["--flag", "x"] : List String).Sublist ["1", "--flag", "x"] ∧
    radicli_parse env0 "_extra"
      [⟨"a", Option.none, Option.none, some (.pyType .int), .ellipsis,
        Option.none, Option.none, Option.none⟩]
      ["1", "--flag", "x"] false =
      .error (.unrecognized ["--flag", "x"]) := by
  have h := (c8_extra_tokens env0 "_extra"
      [⟨"a", Option.none, Option.none, some (.pyType .int), .ellipsis,
        Option.none, Option.none, Option.none⟩]
      ["1", "--flag", "x"]).2.1 [("a", .int 1)] ["--flag", "x"] (by rfl)
  exact ⟨h.1, h.2.1, h.2.2 (by decide)⟩

/-- Scanning an empty token list matches nothing. -/
theorem scanTokens_nil (env : ConvEnv) (specs : List ArgSpec) :
    scanTokens env specs [] = .ok ([], [], []) := rfl

/-- A single optional-`"?"` positional with no token is skipped. -/
theorem assignPositionals_nil_opt (env : ConvEnv) (s : ArgSpec)
    (hs : s.2.nargs = some "?") :
    assignPositionals env [s] [] = .ok ([], []) := by
  unfold assignPositionals
  simp [hs, assignPositionals]

/-- A single required positional with no token is a fatal "required"
error. -/
theorem assignPositionals_nil_req (env : ConvEnv) (s : ArgSpec)
    (hs : s.2.nargs ≠ some "?") :
    assignPositionals env [s] [] = .error (.missingRequired s.2.dest) := by
  unfold assignPositionals
  simp [hs]

/-- A spec that was never bound during parsing gets its projected
default. -/
theorem finalValue_no_bindings (s : ArgSpec) (d : PyValue)
    (hd : s.2.default = some d) : finalValue s [] = d := by
  unfold finalValue
  by_cases hact : s.2.action = some "append" <;> simp [hact, hd]

/-- A spec that was never bound and has no projected default gets
null. -/
theorem finalValue_no_default (s : ArgSpec)
    (hd : s.2.default = Option.none) : finalValue s [] = .none := by
  unfold finalValue
  by_cases hact : s.2.action = some "append" <;> simp [hact, hd]

/-- Parsing an empty token list against the single descriptor `a`
(projected, not the reserved key) reduces to the default of its
projection. -/
theorem radicli_parse_single_nil (env : ConvEnv) (ek : String)
    (a : ArgparseArg) (hid : a.id ≠ ek) (v : PyValue)
    (hnargs : (a.to_argparse).2.nargs = some "?" ∨
      ¬ isPositionalSpec (a.to_argparse))
    (hv : finalValue (a.to_argparse) [] = v) :
    radicli_parse env ek [a] [] false = .ok [(a.id, v)] := by
  unfold radicli_parse
  rw [if_neg (by simp)]
  have hspecs : ([a].filter (fun x => decide (x.id ≠ ek))).map
      ArgparseArg.to_argparse = [a.to_argparse] := by
    simp [hid]
  rw [hspecs]
  unfold parse_args parse_known_args
  simp only [List.enum_nil, scanTokens_nil, Bind.bind, Except.bind]
  by_cases hps : isPositionalSpec (a.to_argparse)
  · have hq : (a.to_argparse).2.nargs = some "?" := by
      rcases hnargs with hq | hq
      · exact hq
      · exact absurd hps hq
    simp only [List.filter_cons, hps, if_pos, List.filter_nil,
      assignPositionals_nil_opt env _ hq]
    simp [hv, to_argparse_dest]
  · simp only [List.filter_cons, hps, Bool.false_eq_true, if_false,
      List.filter_nil]
    simp only [assignPositionals]
    simp [hv, to_argparse_dest]

/-- C10: a positional descriptor (no external flag name) with a real
(non-sentinel) default projects into the grammar with `nargs = "?"`,
so an empty token list is accepted and the parameter binds to its
default. -/
theorem c10_positional_default (env : ConvEnv) (ek : String)
    (a : ArgparseArg) (d : PyValue)
    (hname : pyTruthy a.name = false)
    (hd : a.default = d) (hde : d ≠ PyValue.ellipsis)
    (hid : a.id ≠ ek) :
    (a.to_argparse).2.nargs = some "?" ∧
    radicli_parse env ek [a] [] false = .ok [(a.id, d)] := by
  have hq : (a.to_argparse).2.nargs = some "?" := by
    simp [ArgparseArg.to_argparse, hname, hd, hde]
  have hdef : (a.to_argparse).2.default = some d := by
    simp [ArgparseArg.to_argparse, hd, hde]
  exact ⟨hq, radicli_parse_single_nil env ek a hid d (Or.inl hq)
    (finalValue_no_bindings _ d hdef)⟩

/-- C10 witness: a positional string parameter with default `"d"` and
no tokens parses to its default, with the `"?"` multiplicity in the
projection. -/
theorem c10_positional_default_witness :
    ((⟨"x", Option.none, Option.none, some (.pyType .str), .str "d",
       Option.none, Option.none, Option.none⟩ :
        ArgparseArg).to_argparse).2.nargs = some "?" ∧
    radicli_parse env0 "_extra"
      [⟨"x", Option.none, Option.none, some (.pyType .str), .str "d",
        Option.none, Option.none, Option.none⟩] [] false =
      .ok [("x", .str "d")] :=
  c10_positional_default env0 "_extra"
    ⟨"x", Option.none, Option.none, some (.pyType .str), .str "d",
     Option.none, Option.none, Option.none⟩ (.str "d")
    (by decide) rfl (by decide) (by decide)

/-- A falsy (absent or empty) option string contributes no flag
string. -/
theorem strOptList_eq_nil (o : Option String) (ho : pyTruthy o = false) :
    strOptList o = [] := by
  cases o with
  | none => rfl
  | some s =>
    simp only [pyTruthy, decide_eq_false_iff_not, not_not] at ho
    simp [strOptList, ho]

/-- A truthy option string contributes its flag string. -/
theorem strOptList_ne_nil (o : Option String) (ho : pyTruthy o = true) :
    strOptList o ≠ [] := by
  cases o with
  | none => cases ho
  | some s =>
    simp only [pyTruthy, decide_eq_true_eq] at ho
    simp [strOptList, ho]

/-- Parsing an empty token list against a single projected required
positional is a fatal "required" error. -/
theorem radicli_parse_single_nil_required (env : ConvEnv) (ek : String)
    (a : ArgparseArg) (hid : a.id ≠ ek)
    (hps : isPositionalSpec (a.to_argparse))
    (hnargs : (a.to_argparse).2.nargs ≠ some "?") :
    radicli_parse env ek [a] [] false =
      .error (.missingRequired a.id) := by
  unfold radicli_parse
  rw [if_neg (by simp)]
  have hspecs : ([a].filter (fun x => decide (x.id ≠ ek))).map
      ArgparseArg.to_argparse = [a.to_argparse] := by
    simp [hid]
  rw [hspecs]
  unfold parse_args parse_known_args
  simp only [List.enum_nil, scanTokens_nil, Bind.bind, Except.bind]
  simp only [List.filter_cons, hps, if_pos, List.filter_nil,
    assignPositionals_nil_req env _ hnargs]
  simp [to_argparse_dest]

/-- C2 (amended): a parameter whose declared type does not resolve into
the boolean-flag branch keeps its supplied default after resolution —
the no-default sentinel when none was declared, a real `None` when that
was declared, the two never confused.  A positional parameter carrying
the sentinel is required: parsing tokens that omit it is a fatal error.
A flag-named parameter carrying the sentinel is not required: the
backend binds it to null when omitted. -/
theorem c2_default_sentinel (p : String) (t : PyType)
    (n sh h : Option String) (d : PyValue) (a : ArgparseArg)
    (env : ConvEnv) (ek : String) :
    (PyValue.ellipsis ≠ PyValue.none) ∧
    (resolvesToBool t = false →
      ∀ b, get_arg p (.pyType t) n sh h d false = .ok b → b.default = d) ∧
    (pyTruthy a.name = false → pyTruthy a.shorthand = false →
      a.default = PyValue.ellipsis → a.id ≠ ek →
      radicli_parse env ek [a] [] false =
        .error (.missingRequired a.id)) ∧
    (pyTruthy a.name = true → a.default = PyValue.ellipsis → a.id ≠ ek →
      radicli_parse env ek [a] [] false = .ok [(a.id, PyValue.none)]) := by
  refine ⟨by decide, ?_, ?_, ?_⟩
  · intro hrb b hok
    exact (get_arg_ok_fields p _ _ _ _ _ _ _ hok).2.2.2.2
      (by simpa [resolvesToBoolV] using hrb)
  · intro hn hsh hdef hid
    have hps : isPositionalSpec (a.to_argparse) := by
      simp [isPositionalSpec, ArgparseArg.to_argparse,
        strOptList_eq_nil _ hn, strOptList_eq_nil _ hsh]
    have hq : (a.to_argparse).2.nargs ≠ some "?" := by
      simp [ArgparseArg.to_argparse, hdef]
    exact radicli_parse_single_nil_required env ek a hid hps hq
  · intro hn hdef hid
    have hnn := strOptList_ne_nil _ hn
    have hnp : ¬ isPositionalSpec (a.to_argparse) := by
      simp only [isPositionalSpec, ArgparseArg.to_argparse,
        List.isEmpty_eq_true, List.append_eq_nil]
      intro hcon
      exact hnn hcon.1
    have hdefn : (a.to_argparse).2.default = Option.none := by
      simp [ArgparseArg.to_argparse, hdef]
    exact radicli_parse_single_nil env ek a hid .none (Or.inr hnp)
      (finalValue_no_default _ hdefn)

/-- C2 counterexample: (i) a boolean parameter with no declared default
resolves with default `false`, not the sentinel; (ii) a flag-named
string parameter carrying the sentinel is not required — parsing an
empty token list succeeds and binds it to null instead of failing. -/
theorem c2_counterexample :
    (get_arg "b" (.pyType .bool) Option.none Option.none Option.none
        .ellipsis false =
      .ok ⟨"b", Option.none, Option.none, Option.none, .bool false,
           some "store_true", Option.none, Option.none⟩ ∧
      PyValue.bool false ≠ PyValue.ellipsis) ∧
    radicli_parse env0 "_extra"
      [⟨"x", some "--x", Option.none, some (.pyType .str), .ellipsis,
        Option.none, Option.none, Option.none⟩] [] false =
      .ok [("x", PyValue.none)] := by
  refine ⟨⟨?_, by decide⟩, by rfl⟩
  rw [get_arg.eq_def]
  simp [BASE_TYPES]

/-- C2 witness: the amended theorem applied to a string parameter with
explicit `None` default (kept as the real default), a positional
sentinel-carrying parameter (required error on empty input), and a
flag-named sentinel-carrying parameter (binds null on empty input). -/
theorem c2_default_sentinel_witness :
    get_arg "x" (.pyType .str) Option.none Option.none Option.none
      PyValue.none false =
      .ok ⟨"x", Option.none, Option.none, some (.pyType .str), PyValue.none,
           Option.none, Option.none, Option.none⟩ ∧
    (⟨"x", Option.none, Option.none, some (.pyType .str), PyValue.none,
      Option.none, Option.none, Option.none⟩ : ArgparseArg).default =
      PyValue.none ∧
    radicli_parse env0 "_extra"
      [⟨"x", Option.none, Option.none, some (.pyType .str), .ellipsis,
        Option.none, Option.none, Option.none⟩] [] false =
      .error (.missingRequired "x") ∧
    radicli_parse env0 "_extra"
      [⟨"x", some "--x", Option.none, some (.pyType .str), .ellipsis,
        Option.none, Option.none, Option.none⟩] [] false =
      .ok [("x", PyValue.none)] := by
  have heval : get_arg "x" (.pyType .str) Option.none Option.none Option.none
      PyValue.none false =
      .ok ⟨"x", Option.none, Option.none, some (.pyType .str), PyValue.none,
           Option.none, Option.none, Option.none⟩ := by
    rw [get_arg.eq_def]
    simp [BASE_TYPES]
  have hrb : resolvesToBool .str = false := by
    rw [resolvesToBool.eq_def]
  refine ⟨heval, ?_, ?_, ?_⟩
  · exact (c2_default_sentinel "x" .str Option.none Option.none Option.none
      PyValue.none ⟨"x", Option.none, Option.none, some (.pyType .str),
        PyValue.none, Option.none, Option.none, Option.none⟩ env0
      "_extra").2.1 hrb _ heval
  · exact (c2_default_sentinel "x" .str Option.none Option.none Option.none
      PyValue.none ⟨"x", Option.none, Option.none, some (.pyType .str),
        .ellipsis, Option.none, Option.none, Option.none⟩ env0
      "_extra").2.2.1 (by decide) (by decide) (by decide) (by decide)
  · exact (c2_default_sentinel "x" .str Option.none Option.none Option.none
      PyValue.none ⟨"x", some "--x", Option.none, some (.pyType .str),
        .ellipsis, Option.none, Option.none, Option.none⟩ env0
      "_extra").2.2.2 (by decide) (by decide) (by decide)
